import Mathlib

/-!
Verification of the `sqlrunner` Go package (src/sqlrunner.go) against its
natural-language specification.

The embedding models:
* `Value` — the dynamically-typed cell values the database driver decodes
  into `interface{}` slots (spec §9: null | bool | integer | float | text |
  bytes).  IEEE-754 formatting is not reproducible in this development, so a
  float carries its decimal rendering as produced by the driver/marshaler.
* `Record` — one decoded row.  Go's `rowMap` is a built-in `map[string]
  interface{}`; it is modelled as an association list with at most one entry
  per key, where assignment `m[k] = v` overwrites the value of an existing
  key in place and otherwise adds a new entry (`mapInsert`).
* `Cursor` — the observable behaviour of `*sql.Rows`: the outcome of
  `rows.Columns()`, the sequence of rows delivered by `rows.Next()` together
  with the outcome of each `rows.Scan(...)`, and the deferred iteration
  error reported by `rows.Err()` after the loop ends.
* `DBOutcome` — the outcome of `sql.Open` + `db.Query(query)` for one call:
  connection failure, dispatch failure, or a live cursor.
* `ExecuteSQLTraced` / `ExecuteSQL` — `(*DBConfig).ExecuteSQL`
  (src/sqlrunner.go lines 43-97).  The traced variant additionally counts
  how many times the deferred `rows.Close()` runs.
* `executeHandler` — the anonymous `/execute` handler registered in
  `StartServer` (src/sqlrunner.go lines 106-128), with `Body` modelling what
  `json.NewDecoder(r.Body).Decode(&sqlReq)` can observe about a request
  body.
* `marshal*` — `encoding/json.Marshal` restricted to the shapes that occur:
  Go marshals a `map[string]interface{}` with its keys in sorted order, a
  struct in field order, and honours the `omitempty` tag on `Error`.
-/

namespace SqlRunner

/-- Dynamically-typed cell value decoded by the driver into an
`interface{}` slot.  A float carries its decimal rendering (its exact
IEEE formatting is irrelevant to every claim). -/
inductive Value where
  | vNull
  | vBool (b : Bool)
  | vInt (n : Int)
  | vFloat (decimal : String)
  | vString (s : String)
  | vBytes (bs : List Nat)
deriving DecidableEq, Repr

/-- One decoded row: Go's `map[string]interface{}`, modelled as an
association list holding at most one entry per key. -/
abbrev Record := List (String × Value)

/-- Go map assignment `m[k] = v`: overwrite the entry for `k` in place if
present, otherwise add a new entry. -/
def mapInsert (k : String) (v : Value) : Record → Record
  | [] => [(k, v)]
  | (k2, v2) :: rest =>
    if k2 = k then (k, v) :: rest else (k2, v2) :: mapInsert k v rest

/-- Go map read `m[k]` (restricted to present keys). -/
def lookupRecord : Record → String → Option Value
  | [], _ => none
  | (k2, v) :: rest, k => if k2 = k then some v else lookupRecord rest k

/-- The keys of a record. -/
def mapKeys (m : Record) : List String := m.map Prod.fst

/-- First-occurrence deduplication, accumulator form: the key sequence a
Go map ends up with after assigning under each name of `l` in order,
starting from the keys `acc`. -/
def dedupKeysAux (acc : List String) : List String → List String
  | [] => acc
  | k :: rest => dedupKeysAux (if k ∈ acc then acc else acc ++ [k]) rest

/-- The distinct column names in first-occurrence order: the key sequence
of a row map built over those columns. -/
def dedupKeys (l : List String) : List String := dedupKeysAux [] l

/-- Lines 77-81 of src/sqlrunner.go: `for i, colName := range columns {
rowMap[colName] = *columnPointers[i] }`.  The driver fills exactly
`len(columns)` slots, so the loop pairs `columns[i]` with `columnData[i]`. -/
def buildRecord (cols : List String) (row : List Value) : Record :=
  (cols.zip row).foldl (fun m p => mapInsert p.1 p.2 m) []

/-- Outcome of one `rows.Next()`/`rows.Scan(...)` step: either the decoded
row, or a scan failure. -/
inductive RowOutcome where
  | ok (row : List Value)
  | scanFail (e : String)
deriving DecidableEq, Repr

/-- Observable behaviour of a `*sql.Rows` cursor. -/
structure Cursor where
  /-- Outcome of `rows.Columns()`. -/
  columnsResult : Except String (List String)
  /-- The rows delivered by `rows.Next()` in order, each with its
  `rows.Scan` outcome. -/
  rows : List RowOutcome
  /-- The deferred iteration error reported by `rows.Err()` once the loop
  has consumed every delivered row. -/
  iterErr : Option String
deriving Repr

/-- Outcome of `sql.Open("mysql", dsn)` followed by `db.Query(query)`. -/
inductive DBOutcome where
  | openFail (e : String)
  | queryFail (e : String)
  | cursor (c : Cursor)

/-- Lines 66-83 of src/sqlrunner.go: the `for rows.Next()` loop.  A scan
failure aborts the call with `failed to scan row: ...`; otherwise each row
becomes a record, appended in cursor order. -/
def materializeLoop (cols : List String) : List RowOutcome → Except String (List Record)
  | [] => Except.ok []
  | RowOutcome.scanFail e :: _ => Except.error ("failed to scan row: " ++ e)
  | RowOutcome.ok row :: rest =>
    match materializeLoop cols rest with
    | Except.error e => Except.error e
    | Except.ok recs => Except.ok (buildRecord cols row :: recs)

/-- Lines 59-87 of src/sqlrunner.go: read column metadata, run the row
loop, then check `rows.Err()`.  An iteration error discards every record
built so far and the call reports only the error. -/
def materialize (c : Cursor) : Except String (List Record) :=
  match c.columnsResult with
  | Except.error e => Except.error ("failed to get columns: " ++ e)
  | Except.ok cols =>
    match materializeLoop cols c.rows with
    | Except.error e => Except.error e
    | Except.ok result =>
      match c.iterErr with
      | some e => Except.error ("error iterating over rows: " ++ e)
      | none => Except.ok result

/-! JSON marshaling (`encoding/json`), restricted to the shapes produced
by `ExecuteSQL`: `json.Marshal` escapes `"` `\\` and control characters,
HTML-escapes `<` `>` `&`, renders a `map[string]interface{}` with keys in
sorted (bytewise, equivalently code-point) order, renders `[]byte` as
standard base64, and a struct in field order honouring `omitempty`. -/

/-- Lowercase hexadecimal digit. -/
def hexDigit (n : Nat) : String :=
  (String.singleton (("0123456789abcdef".toList).getD n '0'))

/-- How `json.Marshal` renders one character inside a JSON string. -/
def escapeChar (c : Char) : String :=
  if c = '"' then "\\\""
  else if c = '\\' then "\\\\"
  else if c = '\n' then "\\n"
  else if c = '\r' then "\\r"
  else if c = '\t' then "\\t"
  else if c = '<' then "\\u003c"
  else if c = '>' then "\\u003e"
  else if c = '&' then "\\u0026"
  else if c.toNat < 32 then "\\u00" ++ hexDigit (c.toNat / 16) ++ hexDigit (c.toNat % 16)
  else if c.toNat = 0x2028 then "\\u2028"
  else if c.toNat = 0x2029 then "\\u2029"
  else String.singleton c

/-- JSON string literal. -/
def marshalString (s : String) : String :=
  "\"" ++ String.join (s.toList.map escapeChar) ++ "\""

/-- Standard base64 alphabet. -/
def base64Char (n : Nat) : Char :=
  ("ABCDEFGHIJKLMNOPQRSTUVWXYZabcdefghijklmnopqrstuvwxyz0123456789+/".toList).getD n 'A'

/-- Standard base64 with padding, as `json.Marshal` renders `[]byte`. -/
def base64Encode : List Nat → String
  | [] => ""
  | [b1] =>
    String.singleton (base64Char (b1 / 4)) ++
    String.singleton (base64Char (b1 % 4 * 16)) ++ "=="
  | [b1, b2] =>
    String.singleton (base64Char (b1 / 4)) ++
    String.singleton (base64Char (b1 % 4 * 16 + b2 / 16)) ++
    String.singleton (base64Char (b2 % 16 * 4)) ++ "="
  | b1 :: b2 :: b3 :: rest =>
    String.singleton (base64Char (b1 / 4)) ++
    String.singleton (base64Char (b1 % 4 * 16 + b2 / 16)) ++
    String.singleton (base64Char (b2 % 16 * 4 + b3 / 64)) ++
    String.singleton (base64Char (b3 % 64)) ++
    base64Encode rest

/-- JSON rendering of one cell value. -/
def marshalValue : Value → String
  | Value.vNull => "null"
  | Value.vBool true => "true"
  | Value.vBool false => "false"
  | Value.vInt n => toString n
  | Value.vFloat decimal => decimal
  | Value.vString s => marshalString s
  | Value.vBytes bs => "\"" ++ base64Encode bs ++ "\""

/-- Strict lexicographic order on character lists by code point; on the
UTF-8 encodings Go compares, bytewise order coincides with this order. -/
def charsLt : List Char → List Char → Bool
  | [], [] => false
  | [], _ :: _ => true
  | _ :: _, [] => false
  | c1 :: r1, c2 :: r2 =>
    if c1.toNat < c2.toNat then true
    else if c2.toNat < c1.toNat then false
    else charsLt r1 r2

/-- Non-strict string order used by `sort.Strings` on the map keys. -/
def keyLe (a b : String) : Bool := !charsLt b.toList a.toList

/-- Insert one entry into a key-sorted record (ascending key order). -/
def insertSorted (p : String × Value) : Record → Record
  | [] => [p]
  | q :: rest => if keyLe p.1 q.1 then p :: q :: rest else q :: insertSorted p rest

/-- Sort a record by key, as `json.Marshal` orders the keys of a Go map. -/
def sortByKey (m : Record) : Record := m.foldr insertSorted []

/-- Insert one key into a sorted key list (ascending). -/
def insertKeySorted (k : String) : List String → List String
  | [] => [k]
  | k2 :: rest => if keyLe k k2 then k :: k2 :: rest else k2 :: insertKeySorted k rest

/-- Sort a key list ascending; the key order of `sortByKey` depends only
on the record's key list, via this function. -/
def sortKeys (l : List String) : List String := l.foldr insertKeySorted []

/-- JSON rendering of one record: a JSON object with the map's keys in
sorted order. -/
def marshalRecord (m : Record) : String :=
  "\x7b" ++
    String.intercalate ","
      ((sortByKey m).map (fun p => marshalString p.1 ++ ":" ++ marshalValue p.2)) ++
  "\x7d"

/-- JSON rendering of the result slice. -/
def marshalResultList (rs : List Record) : String :=
  "[" ++ String.intercalate "," (rs.map marshalRecord) ++ "]"

/-- Line 90-91 of src/sqlrunner.go: `json.Marshal(SQLResponse{Result:
result})`.  `SQLResponse.Error` is tagged `omitempty` and is always empty
on this (the only) marshaling path, so the rendered object has just the
`result` field; `result` is built as a non-nil empty slice, so zero rows
render as `[]`, never as `null`. -/
def marshalSQLResponse (result : List Record) : String :=
  "\x7b\"result\":" ++ marshalResultList result ++ "\x7d"

/-- Lines 43-97 of src/sqlrunner.go, with the `rows.Close()` count of the
`defer` on line 56.  In the two early-return branches the cursor never
existed, so the deferred close does not run (count 0); once `db.Query`
succeeds the `defer` is registered, and exactly one close runs on every
return path — column failure, scan failure, iteration error, or success. -/
def ExecuteSQLTraced (o : DBOutcome) : Except String String × Nat :=
  match o with
  | DBOutcome.openFail e =>
    (Except.error ("failed to connect to the database: " ++ e), 0)
  | DBOutcome.queryFail e =>
    (Except.error ("query execution failed: " ++ e), 0)
  | DBOutcome.cursor c =>
    (match materialize c with
     | Except.error e => Except.error e
     | Except.ok result => Except.ok (marshalSQLResponse result), 1)

/-- `(*DBConfig).ExecuteSQL`: the returned `(string, error)` pair as an
`Except` — an error return carries no result string. -/
def ExecuteSQL (o : DBOutcome) : Except String String :=
  (ExecuteSQLTraced o).1

/-- The decoded request payload (`SQLRequest`). -/
structure SQLRequest where
  query : String
deriving DecidableEq, Repr

/-- What `json.NewDecoder(r.Body).Decode(&sqlReq)` can observe about a
request body. -/
inductive Body where
  /-- Body that is not syntactically valid JSON (including an empty body). -/
  | notJSON (raw : String)
  /-- The JSON literal `null`: decodes successfully and leaves
  `sqlReq.Query` at its zero value `""`. -/
  | jsonNull
  /-- Valid JSON that is neither an object nor `null` (number, string,
  array, boolean): decoding into the struct fails. -/
  | jsonNonObject
  /-- A JSON object whose `query` field, when present, is a string;
  `none` models an object without a `query` field, which decodes
  successfully with `sqlReq.Query = ""`. -/
  | jsonObj (query : Option String)
  /-- A JSON object whose `query` field is not a string: decoding fails. -/
  | jsonObjBadQuery
deriving DecidableEq, Repr

/-- Line 113 of src/sqlrunner.go: the outcome of decoding the body into
`SQLRequest`. -/
def decodeSQLRequest : Body → Option SQLRequest
  | Body.notJSON _ => none
  | Body.jsonNull => some ⟨""⟩
  | Body.jsonNonObject => none
  | Body.jsonObj q => some ⟨q.getD ""⟩
  | Body.jsonObjBadQuery => none

/-- The observable outcome of one `/execute` request: status code,
`Content-Type` header, body, and whether the handler reached the database
layer (invoked `ExecuteSQL`) at all. -/
structure HTTPResult where
  status : Nat
  contentType : String
  body : String
  dbContacted : Bool
deriving DecidableEq, Repr

/-- Lines 106-128 of src/sqlrunner.go: the `/execute` handler.  `db` gives
the database layer's outcome for each dispatched query string.
`http.Error` writes its message plus a newline with a plain-text content
type. -/
def executeHandler (method : String) (b : Body) (db : String → DBOutcome) : HTTPResult :=
  if method ≠ "POST" then
    ⟨405, "text/plain; charset=utf-8", "Only POST method is supported\n", false⟩
  else
    match decodeSQLRequest b with
    | none => ⟨400, "text/plain; charset=utf-8", "Invalid request payload\n", false⟩
    | some req =>
      match ExecuteSQL (db req.query) with
      | Except.error e => ⟨500, "text/plain; charset=utf-8", e ++ "\n", true⟩
      | Except.ok json => ⟨200, "application/json", json, true⟩

/-! Concrete inputs used by counterexamples and witnesses. -/

/-- A database layer on which every dispatched query fails. -/
def failingDB : String → DBOutcome := fun _ => DBOutcome.queryFail "boom"

/-- A cursor whose metadata repeats the column name `a` (e.g.
`SELECT 1 AS a, 2 AS a`), delivering one row. -/
def dupColsCursor : Cursor :=
  ⟨Except.ok ["a", "a"], [RowOutcome.ok [Value.vInt 1, Value.vInt 2]], none⟩

/-- A cursor whose column order `b, a` is not alphabetical, delivering one
row. -/
def unsortedColsCursor : Cursor :=
  ⟨Except.ok ["b", "a"], [RowOutcome.ok [Value.vInt 1, Value.vInt 2]], none⟩

/-- A cursor that delivers one row and then reports a deferred iteration
error from `rows.Err()`. -/
def iterFailCursor : Cursor :=
  ⟨Except.ok ["a"], [RowOutcome.ok [Value.vInt 1]], some "connection lost"⟩

/-- A well-behaved two-column cursor delivering one row with a NULL cell. -/
def okCursor : Cursor :=
  ⟨Except.ok ["a", "b"], [RowOutcome.ok [Value.vInt 1, Value.vNull]], none⟩

/-- A cursor that delivers zero rows. -/
def emptyCursor : Cursor := ⟨Except.ok ["id", "name"], [], none⟩

/-! Helper lemmas about the row-map construction. -/

/-- Go map assignment adds the key at the end when absent and leaves the
key sequence unchanged when present. -/
theorem mapKeys_mapInsert (k : String) (v : Value) (m : Record) :
    mapKeys (mapInsert k v m) =
      if k ∈ mapKeys m then mapKeys m else mapKeys m ++ [k] := by
  induction m with
  | nil => simp [mapInsert, mapKeys]
  | cons p rest ih =>
    obtain ⟨k2, v2⟩ := p
    by_cases h : k2 = k
    · subst h
      simp [mapInsert, mapKeys]
    · simp only [mapInsert, if_neg h, mapKeys, List.map_cons] at *
      rw [ih]
      by_cases hm : k ∈ List.map Prod.fst rest
      · simp [hm, Ne.symm h]
      · simp [hm, Ne.symm h]

/-- The key sequence of a row map built by folding assignments is the
first-occurrence deduplication of the assigned keys. -/
theorem mapKeys_foldl (pairs : List (String × Value)) :
    ∀ m : Record,
      mapKeys (pairs.foldl (fun m p => mapInsert p.1 p.2 m) m)
        = dedupKeysAux (mapKeys m) (pairs.map Prod.fst) := by
  induction pairs with
  | nil => intro m; simp [dedupKeysAux]
  | cons p rest ih =>
    intro m
    simp only [List.foldl_cons, List.map_cons, dedupKeysAux]
    rw [ih, mapKeys_mapInsert]

/-- Deduplicating a duplicate-free list of fresh names appends it as is. -/
theorem dedupKeysAux_of_nodup (l : List String) :
    ∀ acc, l.Nodup → (∀ c ∈ l, c ∉ acc) → dedupKeysAux acc l = acc ++ l := by
  induction l with
  | nil => intro acc _ _; simp [dedupKeysAux]
  | cons k rest ih =>
    intro acc hnd hdisj
    have hk : k ∉ acc := hdisj k (List.mem_cons_self k rest)
    have hstep : dedupKeysAux acc (k :: rest) = dedupKeysAux (acc ++ [k]) rest := by
      simp [dedupKeysAux, hk]
    rw [hstep, ih (acc ++ [k]) (List.nodup_cons.mp hnd).2]
    · simp
    · intro c hc
      simp only [List.mem_append, List.mem_singleton]
      rintro (h1 | h2)
      · exact hdisj c (List.mem_cons_of_mem _ hc) h1
      · exact (List.nodup_cons.mp hnd).1 (h2 ▸ hc)

/-- Distinct column names dedup to themselves. -/
theorem dedupKeys_of_nodup (l : List String) (h : l.Nodup) : dedupKeys l = l := by
  have := dedupKeysAux_of_nodup l [] h (by intro c _ hc; cases hc)
  simpa [dedupKeys] using this

/-- The key sequence of a built record is the first-occurrence
deduplication of the column names. -/
theorem mapKeys_buildRecord (cols : List String) (row : List Value)
    (h : row.length = cols.length) :
    mapKeys (buildRecord cols row) = dedupKeys cols := by
  unfold buildRecord
  rw [mapKeys_foldl]
  have hfst : (cols.zip row).map Prod.fst = cols :=
    List.map_fst_zip cols row (le_of_eq h.symm)
  simp [mapKeys, dedupKeys, hfst]

/-- Reading back the key just assigned returns the assigned value. -/
theorem lookupRecord_mapInsert_self (k : String) (v : Value) (m : Record) :
    lookupRecord (mapInsert k v m) k = some v := by
  induction m with
  | nil => simp [mapInsert, lookupRecord]
  | cons p rest ih =>
    obtain ⟨k2, v2⟩ := p
    by_cases h : k2 = k
    · subst h
      simp [mapInsert, lookupRecord]
    · simp [mapInsert, lookupRecord, h, ih]

/-- Assigning one key leaves reads of other keys unchanged. -/
theorem lookupRecord_mapInsert_ne (k k2 : String) (v : Value) (m : Record)
    (h : k2 ≠ k) : lookupRecord (mapInsert k2 v m) k = lookupRecord m k := by
  induction m with
  | nil => simp [mapInsert, lookupRecord, h]
  | cons p rest ih =>
    obtain ⟨k3, v3⟩ := p
    by_cases h3 : k3 = k2
    · subst h3
      simp [mapInsert, lookupRecord, h]
    · simp only [mapInsert, if_neg h3]
      by_cases h4 : k3 = k
      · simp [lookupRecord, h4]
      · simp [lookupRecord, h4, ih]

/-- Folding assignments whose keys avoid `k` leaves reads of `k`
unchanged. -/
theorem lookupRecord_foldl_not_mem (pairs : List (String × Value)) (k : String)
    (h : k ∉ pairs.map Prod.fst) :
    ∀ m, lookupRecord (pairs.foldl (fun m p => mapInsert p.1 p.2 m) m) k
      = lookupRecord m k := by
  induction pairs with
  | nil => intro m; rfl
  | cons p rest ih =>
    intro m
    simp only [List.map_cons, List.mem_cons] at h
    push_neg at h
    simp only [List.foldl_cons]
    rw [ih h.2, lookupRecord_mapInsert_ne _ _ _ _ (fun he => h.1 he.symm)]

/-- After folding the assignments of one row, each key reads back as the
value of its last assignment. -/
theorem lookupRecord_foldl_last (pre post : List (String × Value)) (k : String)
    (v : Value) (h : k ∉ post.map Prod.fst) (m : Record) :
    lookupRecord ((pre ++ (k, v) :: post).foldl (fun m p => mapInsert p.1 p.2 m) m) k
      = some v := by
  rw [List.foldl_append]
  simp only [List.foldl_cons]
  rw [lookupRecord_foldl_not_mem post k h]
  exact lookupRecord_mapInsert_self k v _

/-- In a built record, a column name whose last occurrence is at the
position of cell `v` reads back as `v`. -/
theorem lookupRecord_buildRecord_last (c1s c2s : List String) (name : String)
    (r1 r2 : List Value) (v : Value)
    (hlen : r1.length = c1s.length) (hpost : name ∉ c2s) :
    lookupRecord (buildRecord (c1s ++ name :: c2s) (r1 ++ v :: r2)) name = some v := by
  unfold buildRecord
  rw [List.zip_append hlen.symm, List.zip_cons_cons]
  apply lookupRecord_foldl_last
  intro hmem
  obtain ⟨⟨a, b⟩, hab, hfst⟩ := List.mem_map.mp hmem
  exact hpost (hfst ▸ (List.of_mem_zip hab).1)

/-- Deduplication produces a duplicate-free key sequence. -/
theorem dedupKeysAux_nodup (l : List String) :
    ∀ acc, acc.Nodup → (dedupKeysAux acc l).Nodup := by
  induction l with
  | nil => intro acc h; exact h
  | cons k rest ih =>
    intro acc h
    by_cases hk : k ∈ acc
    · simpa [dedupKeysAux, hk] using ih acc h
    · have happ : (acc ++ [k]).Nodup := by
        rw [List.nodup_append]
        exact ⟨h, List.nodup_singleton k, by simpa [List.disjoint_singleton] using hk⟩
      simpa [dedupKeysAux, hk] using ih (acc ++ [k]) happ

/-- Membership in the deduplicated keys. -/
theorem mem_dedupKeysAux (l : List String) :
    ∀ acc x, x ∈ dedupKeysAux acc l ↔ x ∈ acc ∨ x ∈ l := by
  induction l with
  | nil => intro acc x; simp [dedupKeysAux]
  | cons k rest ih =>
    intro acc x
    by_cases hk : k ∈ acc
    · rw [show dedupKeysAux acc (k :: rest) = dedupKeysAux acc rest by
        simp [dedupKeysAux, hk], ih, List.mem_cons]
      constructor
      · rintro (h | h)
        · exact Or.inl h
        · exact Or.inr (Or.inr h)
      · rintro (h | h | h)
        · exact Or.inl h
        · exact Or.inl (h ▸ hk)
        · exact Or.inr h
    · rw [show dedupKeysAux acc (k :: rest) = dedupKeysAux (acc ++ [k]) rest by
        simp [dedupKeysAux, hk], ih, List.mem_append, List.mem_singleton, List.mem_cons]
      tauto

/-- Column metadata with a repeated name dedups to strictly fewer keys. -/
theorem dedupKeys_length_lt (l : List String) (h : ¬ l.Nodup) :
    (dedupKeys l).length < l.length := by
  have hnd : (dedupKeys l).Nodup := dedupKeysAux_nodup l [] List.nodup_nil
  have hfin : (dedupKeys l).toFinset = l.toFinset := by
    ext x
    simp only [List.mem_toFinset]
    rw [dedupKeys, mem_dedupKeysAux]
    simp
  have h1 : (dedupKeys l).length = l.toFinset.card := by
    rw [← List.toFinset_card_of_nodup hnd, hfin]
  rw [h1, List.card_toFinset]
  have hsub := List.dedup_sublist l
  rcases Nat.lt_or_ge l.dedup.length l.length with hlt | hge
  · exact hlt
  · exfalso
    have heq : l.dedup.length = l.length := le_antisymm hsub.length_le hge
    have hself : l.dedup = l := hsub.eq_of_length heq
    exact h (hself ▸ List.nodup_dedup l)

/-- Sorted insertion commutes with taking keys. -/
theorem mapKeys_insertSorted (p : String × Value) (m : Record) :
    mapKeys (insertSorted p m) = insertKeySorted p.1 (mapKeys m) := by
  induction m with
  | nil => simp [insertSorted, insertKeySorted, mapKeys]
  | cons q rest ih =>
    simp only [mapKeys] at ih ⊢
    by_cases h : keyLe p.1 q.1
    · simp [insertSorted, insertKeySorted, h]
    · simp [insertSorted, insertKeySorted, h, ih]

/-- The serialized key order of a record depends only on its key list. -/
theorem mapKeys_sortByKey (m : Record) :
    mapKeys (sortByKey m) = sortKeys (mapKeys m) := by
  induction m with
  | nil => rfl
  | cons p rest ih =>
    show mapKeys (insertSorted p (sortByKey rest))
      = insertKeySorted p.1 (sortKeys (mapKeys rest))
    rw [mapKeys_insertSorted, ih]

/-- The row loop on all-clean rows materializes every row in cursor
order. -/
theorem materializeLoop_ok_of_rows (cols : List String) (rows : List (List Value)) :
    materializeLoop cols (rows.map RowOutcome.ok)
      = Except.ok (rows.map (buildRecord cols)) := by
  induction rows with
  | nil => rfl
  | cons r rest ih => simp [materializeLoop, ih]

/-- A scan failure anywhere in the delivered rows aborts the row loop
with an error. -/
theorem materializeLoop_error_of_scanFail (cols : List String) (e : String)
    (rows : List RowOutcome) (hmem : RowOutcome.scanFail e ∈ rows) :
    ∃ msg, materializeLoop cols rows = Except.error msg := by
  induction rows with
  | nil => cases hmem
  | cons r rest ih =>
    cases r with
    | scanFail e2 => exact ⟨"failed to scan row: " ++ e2, rfl⟩
    | ok row =>
      rcases List.mem_cons.mp hmem with h | h
      · simp at h
      · obtain ⟨msg, hm⟩ := ih h
        exact ⟨msg, by simp [materializeLoop, hm]⟩

/-- Any scan failure or deferred iteration error makes the whole
materialization an error. -/
theorem materialize_error_of_failure (c : Cursor)
    (h : c.iterErr ≠ none ∨ ∃ e, RowOutcome.scanFail e ∈ c.rows) :
    ∃ msg, materialize c = Except.error msg := by
  rcases hc : c.columnsResult with e | cols
  · exact ⟨"failed to get columns: " ++ e, by simp [materialize, hc]⟩
  · rcases hml : materializeLoop cols c.rows with e | recs
    · exact ⟨e, by simp [materialize, hc, hml]⟩
    · rcases hit : c.iterErr with _ | e
      · rcases h with h | ⟨e2, hmem⟩
        · exact absurd hit h
        · obtain ⟨msg, hm⟩ := materializeLoop_error_of_scanFail cols e2 c.rows hmem
          rw [hml] at hm
          cases hm
      · exact ⟨"error iterating over rows: " ++ e, by simp [materialize, hc, hml, hit]⟩

/-- A handler call whose body decodes reaches the database layer. -/
theorem executeHandler_dbContacted_of_decode (b : Body) (db : String → DBOutcome)
    (req : SQLRequest) (h : decodeSQLRequest b = some req) :
    (executeHandler "POST" b db).dbContacted = true := by
  unfold executeHandler
  rw [if_neg (not_not_intro rfl), h]
  rcases hE : ExecuteSQL (db req.query) with e | j <;> simp [hE]

/-! Claim theorems. -/

/-- C1 (counterexample): with duplicate column metadata `a, a` (K = 2) the
single produced record has only one key, so not every record has exactly K
keys. -/
theorem c1_counterexample :
    materialize dupColsCursor = Except.ok [[("a", Value.vInt 2)]]
    ∧ (mapKeys [("a", Value.vInt 2)]).length = 1
    ∧ (["a", "a"] : List String).length = 2 := ⟨rfl, rfl, rfl⟩

/-- C1 (amended): for a cursor yielding N clean rows over K metadata
columns with distinct names, the materialized output has exactly N
records in cursor order, and every record's key sequence is exactly the
column-name list (hence exactly K keys). -/
theorem c1_shape_amended (c : Cursor) (cols : List String)
    (rows : List (List Value))
    (hcols : c.columnsResult = Except.ok cols)
    (hrows : c.rows = rows.map RowOutcome.ok)
    (hiter : c.iterErr = none)
    (hlen : ∀ r ∈ rows, r.length = cols.length)
    (hnodup : cols.Nodup) :
    materialize c = Except.ok (rows.map (buildRecord cols))
    ∧ (rows.map (buildRecord cols)).length = rows.length
    ∧ ∀ rec ∈ rows.map (buildRecord cols), mapKeys rec = cols := by
  refine ⟨?_, by simp, ?_⟩
  · simp [materialize, hcols, hrows, hiter, materializeLoop_ok_of_rows]
  · intro rec hrec
    obtain ⟨r, hr, hrrec⟩ := List.mem_map.mp hrec
    rw [← hrrec, mapKeys_buildRecord cols r (hlen r hr), dedupKeys_of_nodup cols hnodup]

/-- C1 (witness): the amended claim at a concrete two-column cursor with
one row. -/
theorem c1_shape_amended_witness :
    materialize okCursor
      = Except.ok ([[Value.vInt 1, Value.vNull]].map (buildRecord ["a", "b"]))
    ∧ ([[Value.vInt 1, Value.vNull]].map (buildRecord ["a", "b"])).length
      = [[Value.vInt 1, Value.vNull]].length
    ∧ ∀ rec ∈ [[Value.vInt 1, Value.vNull]].map (buildRecord ["a", "b"]),
        mapKeys rec = ["a", "b"] :=
  c1_shape_amended okCursor ["a", "b"] [[Value.vInt 1, Value.vNull]]
    rfl rfl rfl (by decide) (by decide)

/-- C2: whenever the cursor reports a deferred iteration error (or any
row's scan fails), `ExecuteSQL` returns only an error — never a result
containing the rows materialized before the failure. -/
theorem c2_no_partial_results (c : Cursor)
    (h : c.iterErr ≠ none ∨ ∃ e, RowOutcome.scanFail e ∈ c.rows) :
    ∃ msg, ExecuteSQL (DBOutcome.cursor c) = Except.error msg := by
  obtain ⟨msg, hm⟩ := materialize_error_of_failure c h
  exact ⟨msg, by simp [ExecuteSQL, ExecuteSQLTraced, hm]⟩

/-- C2 (witness): a cursor that delivers a row and then fails mid-stream
produces only an error. -/
theorem c2_no_partial_results_witness :
    (iterFailCursor.iterErr ≠ none
      ∨ ∃ e, RowOutcome.scanFail e ∈ iterFailCursor.rows)
    ∧ ∃ msg, ExecuteSQL (DBOutcome.cursor iterFailCursor) = Except.error msg :=
  ⟨Or.inl (by simp [iterFailCursor]),
   c2_no_partial_results iterFailCursor (Or.inl (by simp [iterFailCursor]))⟩

/-- C3 (counterexample): a POST whose body is the JSON object `\x7b\x7d`
− valid JSON but missing the `query` field − is not rejected with 400: it
decodes to an empty query, the handler contacts the database, and (here)
returns 500. -/
theorem c3_counterexample :
    (executeHandler "POST" (Body.jsonObj none) failingDB).dbContacted = true
    ∧ (executeHandler "POST" (Body.jsonObj none) failingDB).status = 500 := ⟨rfl, rfl⟩

/-- C3 (amended): a body that fails JSON decoding — not syntactically
JSON, a non-object JSON value, or an object whose `query` field is not a
string — always yields 400 with no database interaction; but a JSON
object merely missing the `query` field decodes to an empty query and
does reach the database layer. -/
theorem c3_badrequest_amended :
    (∀ db raw, executeHandler "POST" (Body.notJSON raw) db
      = ⟨400, "text/plain; charset=utf-8", "Invalid request payload\n", false⟩)
    ∧ (∀ db, executeHandler "POST" Body.jsonNonObject db
      = ⟨400, "text/plain; charset=utf-8", "Invalid request payload\n", false⟩)
    ∧ (∀ db, executeHandler "POST" Body.jsonObjBadQuery db
      = ⟨400, "text/plain; charset=utf-8", "Invalid request payload\n", false⟩)
    ∧ (∀ db, (executeHandler "POST" (Body.jsonObj none) db).dbContacted = true) :=
  ⟨fun _ _ => rfl, fun _ => rfl, fun _ => rfl,
   fun db => executeHandler_dbContacted_of_decode (Body.jsonObj none) db ⟨""⟩ rfl⟩

/-- C4 (counterexample): on a database failure the handler answers 500
with `http.Error`'s plain-text body (the error message plus a newline),
not a JSON Response Envelope: the content type is not `application/json`
and the body does not even start with an object brace. -/
theorem c4_counterexample :
    executeHandler "POST" (Body.jsonObj (some "SELECT 1")) failingDB
      = ⟨500, "text/plain; charset=utf-8", "query execution failed: boom\n", true⟩
    ∧ (executeHandler "POST" (Body.jsonObj (some "SELECT 1")) failingDB).contentType
      ≠ "application/json"
    ∧ (executeHandler "POST" (Body.jsonObj (some "SELECT 1")) failingDB).body.toList.head?
      ≠ some '\x7b' := ⟨rfl, by decide, by decide⟩

/-- C4 (amended): for every decodable POST body on which the database
layer fails, the handler writes status 500 with a plain-text body holding
the error message followed by a newline — not a Response Envelope. -/
theorem c4_plaintext_500_amended (b : Body) (db : String → DBOutcome)
    (req : SQLRequest) (e : String)
    (hdec : decodeSQLRequest b = some req)
    (herr : ExecuteSQL (db req.query) = Except.error e) :
    executeHandler "POST" b db
      = ⟨500, "text/plain; charset=utf-8", e ++ "\n", true⟩ := by
  unfold executeHandler
  rw [if_neg (not_not_intro rfl), hdec]
  simp [herr]

/-- C4 (witness): the amended claim at a concrete failing query. -/
theorem c4_plaintext_500_amended_witness :
    executeHandler "POST" (Body.jsonObj (some "SELECT * FROM t")) failingDB
      = ⟨500, "text/plain; charset=utf-8", "query execution failed: boom\n", true⟩ :=
  c4_plaintext_500_amended (Body.jsonObj (some "SELECT * FROM t")) failingDB
    ⟨"SELECT * FROM t"⟩ "query execution failed: boom" rfl rfl

/-- C5 (counterexample): with column order `b, a`, the serialized record
lists its keys alphabetically (`a` before `b`), not in the database's
column order. -/
theorem c5_counterexample :
    ExecuteSQL (DBOutcome.cursor unsortedColsCursor)
      = Except.ok "\x7b\"result\":[\x7b\"a\":2,\"b\":1\x7d]\x7d"
    ∧ mapKeys (sortByKey (buildRecord ["b", "a"] [Value.vInt 1, Value.vInt 2]))
      = ["a", "b"]
    ∧ (["a", "b"] : List String) ≠ ["b", "a"] := ⟨rfl, rfl, by decide⟩

/-- C5 (amended): all records of one result set carry an identical key
sequence (both in the underlying map and after the marshaler's key sort),
determined by the column metadata alone — but that shared order is the
map/marshal order, not in general the database's column order. -/
theorem c5_key_order_amended (cols : List String) (r1 r2 : List Value)
    (h1 : r1.length = cols.length) (h2 : r2.length = cols.length) :
    mapKeys (buildRecord cols r1) = mapKeys (buildRecord cols r2)
    ∧ mapKeys (sortByKey (buildRecord cols r1))
      = mapKeys (sortByKey (buildRecord cols r2)) := by
  have k1 := mapKeys_buildRecord cols r1 h1
  have k2 := mapKeys_buildRecord cols r2 h2
  refine ⟨k1.trans k2.symm, ?_⟩
  rw [mapKeys_sortByKey, mapKeys_sortByKey, k1, k2]

/-- C5 (witness): the amended claim at two concrete rows over columns
`b, a`. -/
theorem c5_key_order_amended_witness :
    mapKeys (buildRecord ["b", "a"] [Value.vInt 1, Value.vInt 2])
      = mapKeys (buildRecord ["b", "a"] [Value.vNull, Value.vString "x"])
    ∧ mapKeys (sortByKey (buildRecord ["b", "a"] [Value.vInt 1, Value.vInt 2]))
      = mapKeys (sortByKey (buildRecord ["b", "a"] [Value.vNull, Value.vString "x"])) :=
  c5_key_order_amended ["b", "a"] [Value.vInt 1, Value.vInt 2]
    [Value.vNull, Value.vString "x"] rfl rfl

/-- C6: a cell the driver decodes as NULL is stored in the record as the
explicit null value (the cell shown is the one its column name keeps,
i.e. the name's last occurrence), its JSON rendering is `null`, and null
is distinct from the empty string and from zero. -/
theorem c6_null_roundtrip (c1s c2s : List String) (name : String)
    (r1 r2 : List Value)
    (hlen : r1.length = c1s.length) (hlast : name ∉ c2s) :
    lookupRecord (buildRecord (c1s ++ name :: c2s) (r1 ++ Value.vNull :: r2)) name
      = some Value.vNull
    ∧ marshalValue Value.vNull = "null"
    ∧ Value.vNull ≠ Value.vString ""
    ∧ Value.vNull ≠ Value.vInt 0 :=
  ⟨lookupRecord_buildRecord_last c1s c2s name r1 r2 Value.vNull hlen hlast,
   rfl, by decide, by decide⟩

/-- C6 (witness): the claim at a concrete three-column row whose middle
cell is NULL. -/
theorem c6_null_roundtrip_witness :
    lookupRecord (buildRecord (["id"] ++ "v" :: ["x"])
        ([Value.vInt 7] ++ Value.vNull :: [Value.vString "y"])) "v"
      = some Value.vNull
    ∧ marshalValue Value.vNull = "null"
    ∧ Value.vNull ≠ Value.vString ""
    ∧ Value.vNull ≠ Value.vInt 0 :=
  c6_null_roundtrip ["id"] ["x"] "v" [Value.vInt 7] [Value.vString "y"]
    rfl (by decide)

/-- C7: a successful query with zero rows produces the envelope
`\x7b"result":[]\x7d` — the result field is present and an empty
sequence, not absent or null. -/
theorem c7_empty_result (c : Cursor) (cols : List String)
    (hcols : c.columnsResult = Except.ok cols) (hrows : c.rows = [])
    (hiter : c.iterErr = none) :
    ExecuteSQL (DBOutcome.cursor c) = Except.ok "\x7b\"result\":[]\x7d" := by
  have h1 : materialize c = Except.ok [] := by
    simp [materialize, hcols, hrows, hiter, materializeLoop]
  have h2 : ExecuteSQL (DBOutcome.cursor c)
      = Except.ok (marshalSQLResponse []) := by
    simp [ExecuteSQL, ExecuteSQLTraced, h1]
  rw [h2]
  rfl

/-- C7 (witness): the zero-row envelope at a concrete cursor. -/
theorem c7_empty_result_witness :
    ExecuteSQL (DBOutcome.cursor emptyCursor)
      = Except.ok "\x7b\"result\":[]\x7d" :=
  c7_empty_result emptyCursor ["id", "name"] rfl rfl rfl

/-- C8: every non-POST request to `/execute` gets 405 with `http.Error`'s
plain-text message and the database layer is never reached, whatever the
body. -/
theorem c8_method_not_allowed (method : String) (b : Body)
    (db : String → DBOutcome) (h : method ≠ "POST") :
    executeHandler method b db
      = ⟨405, "text/plain; charset=utf-8", "Only POST method is supported\n", false⟩ := by
  unfold executeHandler
  rw [if_pos h]

/-- C8 (witness): a GET carrying a query that would fail if it ever ran
gets 405 and never contacts the database. -/
theorem c8_method_not_allowed_witness :
    executeHandler "GET" (Body.jsonObj (some "SELECT * FROM missing")) failingDB
      = ⟨405, "text/plain; charset=utf-8", "Only POST method is supported\n", false⟩ :=
  c8_method_not_allowed "GET" (Body.jsonObj (some "SELECT * FROM missing"))
    failingDB (by decide)

/-- C9: once `db.Query` has returned a cursor, the deferred `rows.Close()`
runs exactly once on every exit path of `ExecuteSQL` — column-metadata
failure, row-scan failure, deferred iteration failure, or success. -/
theorem c9_cursor_closed_once (c : Cursor) :
    (ExecuteSQLTraced (DBOutcome.cursor c)).2 = 1 := rfl

/-- C10: when column metadata repeats a name, the record keeps a single
entry per distinct name, each name reads back as the value of its last
(highest-index) column, the key sequence is duplicate-free, and with an
actual repetition the record has strictly fewer keys than columns. -/
theorem c10_duplicate_columns (c1s c2s : List String) (name : String)
    (v : Value) (r1 r2 : List Value)
    (hlen1 : r1.length = c1s.length) (hlen2 : r2.length = c2s.length)
    (hlast : name ∉ c2s) :
    lookupRecord (buildRecord (c1s ++ name :: c2s) (r1 ++ v :: r2)) name = some v
    ∧ (mapKeys (buildRecord (c1s ++ name :: c2s) (r1 ++ v :: r2))).Nodup
    ∧ (¬ (c1s ++ name :: c2s).Nodup →
        (mapKeys (buildRecord (c1s ++ name :: c2s) (r1 ++ v :: r2))).length
          < (c1s ++ name :: c2s).length) := by
  have hlen : (r1 ++ v :: r2).length = (c1s ++ name :: c2s).length := by
    simp [hlen1, hlen2]
  have hkeys := mapKeys_buildRecord (c1s ++ name :: c2s) (r1 ++ v :: r2) hlen
  refine ⟨lookupRecord_buildRecord_last c1s c2s name r1 r2 v hlen1 hlast, ?_, ?_⟩
  · rw [hkeys]
    exact dedupKeysAux_nodup _ _ List.nodup_nil
  · intro hnd
    rw [hkeys]
    exact dedupKeys_length_lt _ hnd

/-- C10 (witness): on columns `a, a` with row `1, 2`, the record is
`\x7b"a": 2\x7d` — one key, holding the last column's value. -/
theorem c10_duplicate_columns_witness :
    lookupRecord (buildRecord (["a"] ++ "a" :: []) ([Value.vInt 1] ++ Value.vInt 2 :: []))
        "a" = some (Value.vInt 2)
    ∧ (mapKeys (buildRecord (["a"] ++ "a" :: []) ([Value.vInt 1] ++ Value.vInt 2 :: []))).Nodup
    ∧ (¬ ((["a"] ++ "a" :: []) : List String).Nodup →
        (mapKeys (buildRecord (["a"] ++ "a" :: []) ([Value.vInt 1] ++ Value.vInt 2 :: []))).length
          < ((["a"] ++ "a" :: []) : List String).length) :=
  c10_duplicate_columns ["a"] [] "a" (Value.vInt 2) [Value.vInt 1] []
    rfl rfl (by decide)

end SqlRunner
